import Mathlib

/-!
Shallow embedding of `src/internlist_alert.py`.

External collaborators (HTTP transport, the HTML-parsing primitive that
produces anchor elements, the Telegram channel, the state file) are modelled
as explicit inputs and an explicit `World` record, exactly at the boundaries
the script uses them.  All text processing (the regexes, whitespace handling,
markdown-table parsing) is embedded character-by-character over `List Char`.
-/

namespace InternAlert

/-! ### Python string primitives -/

/-- ASCII whitespace, the characters Python's `str.strip` / `\s` treat as
whitespace in the ASCII range (the script only ever meets ASCII whitespace). -/
def pyIsSpace (c : Char) : Bool :=
  c == ' ' || c == '\t' || c == '\n' || c == '\r' || c == '\x0b' || c == '\x0c'

def isAsciiDigit (c : Char) : Bool := '0' ≤ c && c ≤ '9'

def isAsciiLetter (c : Char) : Bool := ('A' ≤ c && c ≤ 'Z') || ('a' ≤ c && c ≤ 'z')

/-- Python `s.strip()`. -/
def pyStrip (l : List Char) : List Char :=
  ((l.dropWhile pyIsSpace).reverse.dropWhile pyIsSpace).reverse

/-- Python `s.strip(ch)` for a single strip character. -/
def pyStripChar (ch : Char) (l : List Char) : List Char :=
  ((l.dropWhile (· == ch)).reverse.dropWhile (· == ch)).reverse

def splitWsGo : List Char → List Char → List (List Char)
  | [], acc => if acc.isEmpty then [] else [acc.reverse]
  | c :: rest, acc =>
    if pyIsSpace c then
      if acc.isEmpty then splitWsGo rest [] else acc.reverse :: splitWsGo rest []
    else splitWsGo rest (c :: acc)

/-- Python `s.split()`: split on whitespace runs, dropping empty pieces. -/
def splitWs (l : List Char) : List (List Char) :=
  splitWsGo l []

/-- `" ".join(s.split())`; also equals `re.sub(r"\s+", " ", s).strip()`,
the two whitespace-collapsing idioms the script uses. -/
def collapseWs (l : List Char) : List Char :=
  List.intercalate [' '] (splitWs l)

/-- Python `pat in s` (substring containment). -/
def hasSubstr (pat : List Char) : List Char → Bool
  | [] => pat.isEmpty
  | c :: rest => pat.isPrefixOf (c :: rest) || hasSubstr pat rest

/-- Python `s.splitlines()` restricted to the `\n`, `\r\n`, `\r` terminators
(the only ones occurring in the fetched documents). -/
def splitlinesGo : List Char → List Char → List (List Char)
  | [], acc => if acc.isEmpty then [] else [acc.reverse]
  | '\r' :: '\n' :: rest, acc => acc.reverse :: splitlinesGo rest []
  | '\n' :: rest, acc => acc.reverse :: splitlinesGo rest []
  | '\r' :: rest, acc => acc.reverse :: splitlinesGo rest []
  | c :: rest, acc => splitlinesGo rest (c :: acc)

def splitlines (l : List Char) : List (List Char) :=
  splitlinesGo l []

/-- Python `s.split(ch)` for a one-character separator. -/
def splitOnCharGo (sep : Char) : List Char → List Char → List (List Char)
  | [], acc => [acc.reverse]
  | c :: rest, acc =>
    if c == sep then acc.reverse :: splitOnCharGo sep rest []
    else splitOnCharGo sep rest (c :: acc)

def splitOnChar (sep : Char) (l : List Char) : List (List Char) :=
  splitOnCharGo sep l []

/-! ### Data model -/

structure Job where
  id : String
  title : String
  link : String
deriving DecidableEq

/-- An `<a href=...>` element as the HTML-parsing collaborator delivers it:
its `href` attribute and its text content `a.get_text(" ", strip=True)`. -/
structure Anchor where
  href : String
  text : String
deriving DecidableEq

/-! ### Intern-List adapter (`normalize_internlist_url`, `fetch_internlist_jobs`) -/

/-- `normalize_internlist_url`: strip, reject empty, make root-relative hrefs
absolute against the known origin, keep http(s) URLs, reject everything else. -/
def normalize_internlist_url (href : String) : Option String :=
  let h := pyStrip href.data
  if h.isEmpty then none
  else if h.head? = some '/' then some (String.mk ("https://www.intern-list.com".data ++ h))
  else if "https://".data.isPrefixOf h || "http://".data.isPrefixOf h then some (String.mk h)
  else none

/-- Tail of `INTERNLIST_JOB_URL_RE` after the fixed directory part:
`.+_\d+$` — a nonempty newline-free body, an underscore, then trailing digits.
(The stripped links the regex is applied to never end in a newline, so the
plain end-of-string reading of `$` is exact here.) -/
def internlistUrlTail (rest : List Char) : Bool :=
  let r := rest.reverse
  let ds := r.takeWhile isAsciiDigit
  let r2 := r.drop ds.length
  !ds.isEmpty &&
    (match r2 with
     | '_' :: body => !body.isEmpty && body.all (fun c => !(c == '\n'))
     | _ => false)

/-- `INTERNLIST_JOB_URL_RE.match(link)`:
`^https://www\.intern-list\.com/swe-intern-list/.+_\d+$`. -/
def internlistUrlMatch (s : String) : Bool :=
  "https://www.intern-list.com/swe-intern-list/".data.isPrefixOf s.data
    && internlistUrlTail (s.data.drop "https://www.intern-list.com/swe-intern-list/".data.length)

/-- `, \d{4}` — the comma-space-year tail of the date pattern. -/
def commaYear : List Char → Option (List Char × List Char)
  | ',' :: ' ' :: y1 :: y2 :: y3 :: y4 :: rest =>
    if isAsciiDigit y1 && isAsciiDigit y2 && isAsciiDigit y3 && isAsciiDigit y4 then
      some ([',', ' ', y1, y2, y3, y4], rest)
    else none
  | _ => none

/-- Match `[A-Za-z]+ \d{1,2}, \d{4}` at the head of `l`, returning the matched
characters and the remainder.  The greedy letter run must be maximal (a
shorter run is followed by a letter, not the required space), and the
`\d{1,2}` alternatives are tried two-digits-first exactly as the regex
engine does. -/
def dateCoreAt (l : List Char) : Option (List Char × List Char) :=
  let ls := l.takeWhile isAsciiLetter
  if ls.isEmpty then none else
  match l.drop ls.length with
  | ' ' :: d1 :: rest1 =>
    if isAsciiDigit d1 then
      match rest1 with
      | d2 :: rest2 =>
        if isAsciiDigit d2 then
          match commaYear rest2 with
          | some (m, rest) => some (ls ++ ' ' :: d1 :: d2 :: m, rest)
          | none => none
        else
          match commaYear rest1 with
          | some (m, rest) => some (ls ++ ' ' :: d1 :: m, rest)
          | none => none
      | [] => none
    else none
  | _ => none

/-- `re.search(r"([A-Za-z]+ \d{1,2}, \d{4})", raw)`: leftmost match. -/
def dateSearch : List Char → Option (List Char)
  | [] => none
  | c :: rest =>
    match dateCoreAt (c :: rest) with
    | some (m, _) => some m
    | none => dateSearch rest

/-- Length of a match of `\s*[A-Za-z]+ \d{1,2}, \d{4}\s*` at the head of `l`
(leading and trailing whitespace greedy). -/
def dateSubMatchLen (l : List Char) : Option Nat :=
  let ws := l.takeWhile pyIsSpace
  match dateCoreAt (l.drop ws.length) with
  | some (m, rest) => some (ws.length + m.length + (rest.takeWhile pyIsSpace).length)
  | none => none

/-- `re.sub(r"\s*[A-Za-z]+ \d{1,2}, \d{4}\s*", " ", raw)`: scan left to right,
replacing each (non-overlapping) match with one space.  The pattern always
consumes at least one character, so only the `some (n + 1)` case can arise.
The structural `fuel` argument starts at the list length and bounds the
number of scan steps; since every step consumes at least one character it
never runs out before the list does. -/
def dateSubGoF : Nat → List Char → List Char
  | _, [] => []
  | 0, l => l
  | fuel + 1, c :: rest =>
    match dateSubMatchLen (c :: rest) with
    | some (n + 1) => ' ' :: dateSubGoF fuel (rest.drop n)
    | _ => c :: dateSubGoF fuel rest

def dateSubGo (l : List Char) : List Char :=
  dateSubGoF l.length l

/-- The per-anchor body of the `fetch_internlist_jobs` loop, before the
within-fetch link dedup check: URL normalization, URL-shape filter, text
extraction, date relocation, id composition. -/
def processAnchor (a : Anchor) : Option Job :=
  match normalize_internlist_url a.href with
  | none => none
  | some link =>
    if !internlistUrlMatch link then none else
    let raw := collapseWs a.text.data
    if raw.isEmpty then none else
    let date := dateSearch raw
    let stripped := collapseWs (dateSubGo raw)
    let title : List Char :=
      match date with
      | some d => '[' :: d ++ ']' :: ' ' :: stripped
      | none => stripped
    some ⟨String.mk ("internlist:".data ++ link.data), String.mk title, link⟩

def fetch_internlist_jobs_go : List Anchor → List String → List Job
  | [], _ => []
  | a :: rest, seenLinks =>
    match processAnchor a with
    | none => fetch_internlist_jobs_go rest seenLinks
    | some j =>
      if j.link ∈ seenLinks then fetch_internlist_jobs_go rest seenLinks
      else j :: fetch_internlist_jobs_go rest (j.link :: seenLinks)

/-- `fetch_internlist_jobs`, as a function of the anchor elements the parsing
collaborator extracts from the fetched page. -/
def fetch_internlist_jobs (anchors : List Anchor) : List Job :=
  fetch_internlist_jobs_go anchors []

/-! ### Simplify adapter (`_extract_any_url`, `_clean_md_text`, `fetch_simplify_swe_jobs`) -/

/-- Match the `https?://` head of a URL at the start of `l`, returning the
matched scheme characters and the remainder. -/
def httpUrlStart (l : List Char) : Option (List Char × List Char) :=
  if "https://".data.isPrefixOf l then some ("https://".data, l.drop "https://".data.length)
  else if "http://".data.isPrefixOf l then some ("http://".data, l.drop "http://".data.length)
  else none

/-- Match `href="(https?://[^"]+)"` at the head of `l`, returning group 1. -/
def hrefMatchAt (l : List Char) : Option (List Char) :=
  if "href=\"".data.isPrefixOf l then
    match httpUrlStart (l.drop "href=\"".data.length) with
    | some (scheme, rest) =>
      let body := rest.takeWhile (fun c => !(c == '"'))
      if body.isEmpty then none else
      match rest.drop body.length with
      | '"' :: _ => some (scheme ++ body)
      | _ => none
    | none => none
  else none

def hrefSearch : List Char → Option (List Char)
  | [] => none
  | c :: rest =>
    match hrefMatchAt (c :: rest) with
    | some u => some u
    | none => hrefSearch rest

/-- Match `\[[^\]]+\]\((https?://[^)]+)\)` at the head of `l`, returning group 1. -/
def mdUrlMatchAt : List Char → Option (List Char)
  | '[' :: rest =>
    let txt := rest.takeWhile (fun c => !(c == ']'))
    if txt.isEmpty then none else
    (match rest.drop txt.length with
     | ']' :: '(' :: rest2 =>
       match httpUrlStart rest2 with
       | some (scheme, rest3) =>
         let body := rest3.takeWhile (fun c => !(c == ')'))
         if body.isEmpty then none else
         (match rest3.drop body.length with
          | ')' :: _ => some (scheme ++ body)
          | _ => none)
       | none => none
     | _ => none)
  | _ => none

def mdUrlSearch : List Char → Option (List Char)
  | [] => none
  | c :: rest =>
    match mdUrlMatchAt (c :: rest) with
    | some u => some u
    | none => mdUrlSearch rest

/-- Match `(https?://[^\s)]+)` at the head of `l`. -/
def rawUrlMatchAt (l : List Char) : Option (List Char) :=
  match httpUrlStart l with
  | some (scheme, rest) =>
    let body := rest.takeWhile (fun c => !(pyIsSpace c || c == ')'))
    if body.isEmpty then none else some (scheme ++ body)
  | none => none

def rawUrlSearch : List Char → Option (List Char)
  | [] => none
  | c :: rest =>
    match rawUrlMatchAt (c :: rest) with
    | some u => some u
    | none => rawUrlSearch rest

/-- `_extract_any_url`: HTML `href` first, then a markdown link target, then a
bare URL; `None` on empty input or no match. -/
def extract_any_url (l : List Char) : Option (List Char) :=
  if l.isEmpty then none else
  match hrefSearch l with
  | some u => some u
  | none =>
    match mdUrlSearch l with
    | some u => some u
    | none => rawUrlSearch l

/-- Match `\[([^\]]+)\]\([^)]+\)` at the head of `l`, returning the group-1
replacement text together with the total matched length. -/
def mdLinkMatchAt : List Char → Option (List Char × Nat)
  | '[' :: rest =>
    let txt := rest.takeWhile (fun c => !(c == ']'))
    if txt.isEmpty then none else
    (match rest.drop txt.length with
     | ']' :: '(' :: rest2 =>
       let url := rest2.takeWhile (fun c => !(c == ')'))
       if url.isEmpty then none else
       (match rest2.drop url.length with
        | ')' :: _ => some (txt, 1 + txt.length + 2 + url.length + 1)
        | _ => none)
     | _ => none)
  | _ => none

/-- `re.sub(r"\[([^\]]+)\]\([^)]+\)", r"\1", s)`: turn `[text](url)` into
`text`, scanning left to right.  A match always consumes at least the opening
bracket, so only the `some (txt, n + 1)` case can arise; the structural
`fuel` argument starts at the list length and cannot run out first. -/
def mdLinkSubGoF : Nat → List Char → List Char
  | _, [] => []
  | 0, l => l
  | fuel + 1, c :: rest =>
    match mdLinkMatchAt (c :: rest) with
    | some (txt, n + 1) => txt ++ mdLinkSubGoF fuel (rest.drop n)
    | _ => c :: mdLinkSubGoF fuel rest

def mdLinkSubGo (l : List Char) : List Char :=
  mdLinkSubGoF l.length l

/-- Match `<[^>]+>` at the head of `l`, returning the matched length. -/
def tagMatchAt : List Char → Option Nat
  | '<' :: rest =>
    let inner := rest.takeWhile (fun c => !(c == '>'))
    if inner.isEmpty then none else
    (match rest.drop inner.length with
     | '>' :: _ => some (1 + inner.length + 1)
     | _ => none)
  | _ => none

/-- `re.sub(r"<[^>]+>", "", s)`: delete HTML tags; fuel as above. -/
def tagSubGoF : Nat → List Char → List Char
  | _, [] => []
  | 0, l => l
  | fuel + 1, c :: rest =>
    match tagMatchAt (c :: rest) with
    | some (n + 1) => tagSubGoF fuel (rest.drop n)
    | _ => c :: tagSubGoF fuel rest

def tagSubGo (l : List Char) : List Char :=
  tagSubGoF l.length l

/-- `_clean_md_text`: markdown links to their text, drop HTML tags, collapse
whitespace and strip. -/
def cleanMdText (l : List Char) : List Char :=
  collapseWs (tagSubGo (mdLinkSubGo l))

/-- `norm = re.sub(r"\s+", " ", ln.strip().lower())`. -/
def headerNorm (ln : List Char) : List Char :=
  collapseWs ((pyStrip ln).map Char.toLower)

/-- The header test of `fetch_simplify_swe_jobs`: the normalized line starts
with `| company |` and contains the other four labels as pipe-delimited
substrings. -/
def isHeaderRow (ln : List Char) : Bool :=
  let norm := headerNorm ln
  "| company |".data.isPrefixOf norm
    && hasSubstr " | role | ".data norm
    && hasSubstr " | location | ".data norm
    && hasSubstr " | application | ".data norm
    && hasSubstr " | age |".data norm

/-- Index of the first header row, the `header_idx` scan. -/
def findHeaderIdx : List (List Char) → Option Nat
  | [] => none
  | ln :: rest =>
    if isHeaderRow ln then some 0 else (findHeaderIdx rest).map (· + 1)

/-- `not ln.strip().startswith("|")` negated: does the stripped line start
with a pipe? -/
def rowStarts (ln : List Char) : Bool :=
  match pyStrip ln with
  | '|' :: _ => true
  | _ => false

/-- `set(ln.replace("|", "").strip()) <= {"-", ":", " "}`. -/
def isSeparatorRow (ln : List Char) : Bool :=
  (pyStrip (ln.filter (fun c => !(c == '|')))).all (fun c => c == '-' || c == ':' || c == ' ')

/-- `[c.strip() for c in ln.strip().strip("|").split("|")]`. -/
def rowCells (ln : List Char) : List (List Char) :=
  (splitOnChar '|' (pyStripChar '|' (pyStrip ln))).map pyStrip

/-- The per-row body after the cell-count check: clean the five cells, find
the application URL (application cell first, whole line as fallback), and
build the title and the composite id. -/
def rowJob (ln : List Char) (cells : List (List Char)) : Option Job :=
  let company := cleanMdText (cells.getD 0 [])
  let role := cleanMdText (cells.getD 1 [])
  let location := cleanMdText (cells.getD 2 [])
  let appCell := cells.getD 3 []
  let age0 := cleanMdText (cells.getD 4 [])
  let age := if age0.isEmpty then "?".data else age0
  match (extract_any_url appCell).orElse (fun _ => extract_any_url ln) with
  | none => none
  | some link =>
    some ⟨String.mk ("simplify:".data ++ company ++ '|' :: role ++ '|' :: location
            ++ '|' :: link),
          String.mk ("[Simplify | ".data ++ age ++ "] ".data ++ company ++ " — ".data
            ++ role ++ " (".data ++ location ++ ")".data),
          String.mk link⟩

/-- The row loop: stop at the first line not starting with `|`, skip
separator rows and short rows, count every remaining row as parsed, and keep
the rows that yield an application URL. -/
def parseRows : List (List Char) → List Job × Nat
  | [] => ([], 0)
  | ln :: rest =>
    if !rowStarts ln then ([], 0)
    else if isSeparatorRow ln then parseRows rest
    else
      let cells := rowCells ln
      if cells.length < 5 then parseRows rest
      else
        let (jobs, n) := parseRows rest
        match rowJob ln cells with
        | none => (jobs, n + 1)
        | some j => (j :: jobs, n + 1)

/-- The URL-fallback loop of `fetch_simplify_swe_jobs`: each response is
`none` when the request raised, `some (status, text)` otherwise; the first
response with status 200 and nonempty body wins. -/
def pickMd : List (Option (Nat × String)) → Option String
  | [] => none
  | none :: rest => pickMd rest
  | some (status, text) :: rest =>
    if status == 200 && !text.isEmpty then some text else pickMd rest

/-- `fetch_simplify_swe_jobs`, as a function of the per-URL fetch responses:
returns `(jobs, parsed_row_count)`, and `([], 0)` when no document was
obtained or no header row was found. -/
def fetch_simplify_swe_jobs (responses : List (Option (Nat × String))) : List Job × Nat :=
  match pickMd responses with
  | none => ([], 0)
  | some md =>
    let lines := splitlines md.data
    match findHeaderIdx lines with
    | none => ([], 0)
    | some idx => parseRows (lines.drop (idx + 2))

/-! ### Channel, state file and `main` -/

/-- The two environment secrets; `none` models an unset variable, on which
`os.environ[...]` raises `KeyError`. -/
structure Env where
  telegram_bot_token : Option String
  telegram_chat_id : Option String
deriving DecidableEq

inductive RunError where
  /-- An exception escaping `fetch_internlist_jobs` (it has no handler). -/
  | internlistFetch
  /-- `KeyError` from `os.environ[...]` inside `send_telegram`. -/
  | missingCredential
  /-- `raise_for_status()` on a failed Telegram call. -/
  | telegramHttp
deriving DecidableEq

/-- `send_telegram`: read the two secrets (raising on an absent one), then
perform the HTTP call, whose success is the `netOk` input. -/
def send_telegram (env : Env) (netOk : Bool) (_msg : List String) : Except RunError Unit :=
  match env.telegram_bot_token, env.telegram_chat_id with
  | none, _ => .error .missingCredential
  | some _, none => .error .missingCredential
  | some _, some _ => if netOk then .ok () else .error .telegramHttp

/-- The observable effects: the content of `seen.json` (a set of ids — the
file stores it sorted, which does not affect the set) and the log of
successfully sent messages, each kept as its list of lines before the final
`"\n".join`. -/
structure World where
  stateFile : Finset String
  sentMessages : List (List String)
deriving DecidableEq

def entryLine (j : Job) : String :=
  "- " ++ j.title ++ "\n  " ++ j.link ++ "\n"

/-- The message built by `main`: banner, the Intern-List section when it has
new postings (capped at 6 entries), then the always-present Simplify section
with its diagnostic line and either up to 6 entries or a placeholder. -/
def messageLines (newIL newS : List Job) (parsedRows : Nat) : List String :=
  ["🆕 New Internship Postings\n"]
    ++ (if newIL.isEmpty then [] else "📌 Intern-List" :: (newIL.take 6).map entryLine)
    ++ ["📌 Simplify (GitHub)",
        "- Parsed " ++ toString parsedRows ++ " rows; " ++ toString newS.length
          ++ " new this run\n"]
    ++ (if newS.isEmpty then ["- (No new postings found from Simplify on this run)\n"]
        else (newS.take 6).map entryLine)

/-- `new_internlist`: fetched Intern-List postings whose id is not in the
loaded seen-set. -/
def newInternlist (anchors : List Anchor) (seen : Finset String) : List Job :=
  (fetch_internlist_jobs anchors).filter (fun j => decide (j.id ∉ seen))

/-- `new_simplify`: fetched Simplify postings whose id is not in the loaded
seen-set. -/
def newSimplify (responses : List (Option (Nat × String))) (seen : Finset String) : List Job :=
  (fetch_simplify_swe_jobs responses).1.filter (fun j => decide (j.id ∉ seen))

/-- `main`: load the seen-set, fetch both sources (an Intern-List fetch
exception propagates; the Simplify fetch handles its own), compute the new
postings, return silently when there are none, otherwise send the grouped
message and — only on send success — add every new id to the seen-set and
commit it. -/
def main (env : Env) (netOk : Bool) (internlistDoc : Except Unit (List Anchor))
    (responses : List (Option (Nat × String))) (w : World) :
    Except RunError Unit × World :=
  let seen := w.stateFile
  match internlistDoc with
  | .error _ => (.error .internlistFetch, w)
  | .ok anchors =>
    let newIL := newInternlist anchors seen
    let newS := newSimplify responses seen
    if newIL.isEmpty && newS.isEmpty then (.ok (), w)
    else
      let lines := messageLines newIL newS (fetch_simplify_swe_jobs responses).2
      match send_telegram env netOk lines with
      | .error e => (.error e, w)
      | .ok _ =>
        (.ok (), { stateFile := seen ∪ ((newIL ++ newS).map Job.id).toFinset,
                   sentMessages := w.sentMessages ++ [lines] })

/-! ### Concrete sample inputs used by counterexamples and witnesses -/

/-- A valid Intern-List job anchor. -/
def sampleAnchor : Anchor :=
  ⟨"https://www.intern-list.com/swe-intern-list/acme_12", "Acme SWE Intern"⟩

/-- A raw README with a well-formed SWE table holding one row. -/
def sampleSimplifyDoc : String :=
  "| Company | Role | Location | Application | Age |\n| --- | --- | --- | --- | --- |\n| Acme | SWE Intern | NYC | [Apply](https://acme.com/x) | 1d |\n"

/-- The same table with its single data row duplicated (same link twice). -/
def dupRowDoc : String :=
  "| Company | Role | Location | Application | Age |\n| --- | --- | --- | --- | --- |\n| Acme | SWE Intern | NYC | [Apply](https://acme.com/x) | 1d |\n| Acme | SWE Intern | NYC | [Apply](https://acme.com/x) | 1d |\n"

/-- The same table with the header columns permuted (Role first). -/
def permutedHeaderDoc : String :=
  "| Role | Company | Location | Application | Age |\n| --- | --- | --- | --- | --- |\n| Acme | SWE Intern | NYC | [Apply](https://acme.com/x) | 1d |\n"

/-- The same table with the header in upper case. -/
def upperHeaderDoc : String :=
  "| COMPANY | ROLE | LOCATION | APPLICATION | AGE |\n| --- | --- | --- | --- | --- |\n| Acme | SWE Intern | NYC | [Apply](https://acme.com/x) | 1d |\n"

/-- The Job that `processAnchor` produces from `sampleAnchor`. -/
def sampleJob : Job :=
  ⟨"internlist:https://www.intern-list.com/swe-intern-list/acme_12", "Acme SWE Intern",
   "https://www.intern-list.com/swe-intern-list/acme_12"⟩

def envOK : Env := ⟨some "token", some "chat"⟩

def w0 : World := ⟨∅, []⟩

/-! ### Permutation machinery for the header-order analysis -/

def insertEverywhere (x : List Char) : List (List Char) → List (List (List Char))
  | [] => [[x]]
  | y :: ys => (x :: y :: ys) :: (insertEverywhere x ys).map (y :: ·)

/-- All permutations of a list of labels (structurally recursive, so it
evaluates inside the kernel). -/
def permsOf : List (List Char) → List (List (List Char))
  | [] => [[]]
  | x :: xs => (permsOf xs).flatMap (insertEverywhere x)

def headerLabels : List (List Char) :=
  ["Company".data, "Role".data, "Location".data, "Application".data, "Age".data]

/-- A header row in the canonical markdown spacing for a given column order. -/
def renderHeader (p : List (List Char)) : List Char :=
  "| ".data ++ List.intercalate " | ".data p ++ " |".data

/-- Does `isHeaderRow` on this column order agree with "Company first and Age
last"? -/
def checkPerm (p : List (List Char)) : Bool :=
  isHeaderRow (renderHeader p)
    == (p.head? == some "Company".data && p.getLast? == some "Age".data)

/-! ### Helper lemmas -/

lemma filter_nil_of_all_mem (l : List Job) (s : Finset String) (h : ∀ j ∈ l, j.id ∈ s) :
    l.filter (fun j => decide (j.id ∉ s)) = [] := by
  refine List.filter_eq_nil_iff.mpr ?_
  intro j hj
  simp only [decide_eq_true_eq]
  exact not_not_intro (h j hj)

lemma filter_all_of_empty (l : List Job) :
    l.filter (fun j => decide (j.id ∉ (∅ : Finset String))) = l := by
  refine List.filter_eq_self.mpr ?_
  intro j _
  simp [Finset.not_mem_empty]

lemma mem_seen_or_new (l : List Job) (s : Finset String) (j : Job) (hj : j ∈ l) :
    j.id ∈ s ∨ j ∈ l.filter (fun j => decide (j.id ∉ s)) := by
  by_cases h : j.id ∈ s
  · exact .inl h
  · refine .inr (List.mem_filter.mpr ⟨hj, ?_⟩)
    simpa using h

lemma cond_false_of_ne_nil {l₁ l₂ : List Job} (h : l₁ ++ l₂ ≠ []) :
    (l₁.isEmpty && l₂.isEmpty) = false := by
  rcases l₁ with _ | ⟨a, t⟩
  · rcases l₂ with _ | ⟨b, t2⟩
    · simp at h
    · rfl
  · rfl

lemma main_internlist_error (env : Env) (netOk : Bool) (e : Unit)
    (resp : List (Option (Nat × String))) (w : World) :
    main env netOk (.error e) resp w = (.error .internlistFetch, w) := rfl

lemma main_ok_def (env : Env) (netOk : Bool) (anchors : List Anchor)
    (resp : List (Option (Nat × String))) (w : World) :
    main env netOk (.ok anchors) resp w =
      (if (newInternlist anchors w.stateFile).isEmpty
          && (newSimplify resp w.stateFile).isEmpty then (.ok (), w)
       else
         match send_telegram env netOk (messageLines (newInternlist anchors w.stateFile)
             (newSimplify resp w.stateFile) (fetch_simplify_swe_jobs resp).2) with
         | .error e => (.error e, w)
         | .ok _ =>
           (.ok (),
            ⟨w.stateFile ∪ ((newInternlist anchors w.stateFile
                ++ newSimplify resp w.stateFile).map Job.id).toFinset,
             w.sentMessages ++ [messageLines (newInternlist anchors w.stateFile)
               (newSimplify resp w.stateFile) (fetch_simplify_swe_jobs resp).2]⟩)) := rfl

lemma send_telegram_ok (env : Env) (msg : List String)
    (h1 : env.telegram_bot_token.isSome) (h2 : env.telegram_chat_id.isSome) :
    send_telegram env true msg = .ok () := by
  rcases env with ⟨tok, chat⟩
  cases tok <;> cases chat <;> simp_all [send_telegram]

lemma send_telegram_missing (env : Env) (netOk : Bool) (msg : List String)
    (h : env.telegram_bot_token = none ∨ env.telegram_chat_id = none) :
    send_telegram env netOk msg = .error .missingCredential := by
  rcases env with ⟨tok, chat⟩
  cases tok <;> cases chat <;> simp_all [send_telegram]

lemma main_no_new (env : Env) (netOk : Bool) (anchors : List Anchor)
    (resp : List (Option (Nat × String))) (w : World)
    (h1 : newInternlist anchors w.stateFile = [])
    (h2 : newSimplify resp w.stateFile = []) :
    main env netOk (.ok anchors) resp w = (.ok (), w) := by
  rw [main_ok_def, h1, h2]
  rfl

lemma main_send_ok (env : Env) (anchors : List Anchor)
    (resp : List (Option (Nat × String))) (w : World)
    (h1 : env.telegram_bot_token.isSome) (h2 : env.telegram_chat_id.isSome)
    (hne : newInternlist anchors w.stateFile ++ newSimplify resp w.stateFile ≠ []) :
    main env true (.ok anchors) resp w =
      (.ok (),
       ⟨w.stateFile ∪ ((newInternlist anchors w.stateFile
           ++ newSimplify resp w.stateFile).map Job.id).toFinset,
        w.sentMessages ++ [messageLines (newInternlist anchors w.stateFile)
          (newSimplify resp w.stateFile) (fetch_simplify_swe_jobs resp).2]⟩) := by
  rw [main_ok_def, cond_false_of_ne_nil hne, send_telegram_ok env _ h1 h2]
  rfl

lemma main_ok_or_unchanged (env : Env) (netOk : Bool) (doc : Except Unit (List Anchor))
    (resp : List (Option (Nat × String))) (w : World) :
    (main env netOk doc resp w).1 = .ok () ∨ (main env netOk doc resp w).2 = w := by
  rcases doc with e | anchors
  · exact .inr rfl
  · rw [main_ok_def]
    split
    · exact .inr rfl
    · split
      · exact .inr rfl
      · exact .inl rfl

/-! ### C1 — bootstrap behavior -/

/-- C1 counterexample: starting from an empty SeenState with one fetched
posting, the run's sent-message log is nonempty — a notification IS sent, so
"the run ... sends no notification" is false on this input. -/
theorem bootstrap_sends_notification_cex :
    (main envOK true (.ok [sampleAnchor]) [] w0).2.sentMessages ≠ [] := by decide

/-- C1 (amended): with an empty loaded SeenState and N ≥ 1 fetched postings
across sources, the run commits exactly the fetched posting ids and sends one
notification — there is no bootstrap-silence branch. -/
theorem bootstrap_commits_all_and_notifies (env : Env) (anchors : List Anchor)
    (resp : List (Option (Nat × String))) (w : World)
    (hseen : w.stateFile = ∅)
    (htok : env.telegram_bot_token.isSome) (hchat : env.telegram_chat_id.isSome)
    (hjobs : fetch_internlist_jobs anchors ++ (fetch_simplify_swe_jobs resp).1 ≠ []) :
    main env true (.ok anchors) resp w =
      (.ok (),
       ⟨((fetch_internlist_jobs anchors ++ (fetch_simplify_swe_jobs resp).1).map
           Job.id).toFinset,
        w.sentMessages ++ [messageLines (fetch_internlist_jobs anchors)
          (fetch_simplify_swe_jobs resp).1 (fetch_simplify_swe_jobs resp).2]⟩) := by
  have hIL : newInternlist anchors w.stateFile = fetch_internlist_jobs anchors := by
    rw [hseen]
    exact filter_all_of_empty _
  have hS : newSimplify resp w.stateFile = (fetch_simplify_swe_jobs resp).1 := by
    rw [hseen]
    exact filter_all_of_empty _
  have hne : newInternlist anchors w.stateFile ++ newSimplify resp w.stateFile ≠ [] := by
    rw [hIL, hS]
    exact hjobs
  rw [main_send_ok env anchors resp w htok hchat hne, hIL, hS, hseen, Finset.empty_union]

/-- Witness for C1's amended theorem at a concrete bootstrap run. -/
theorem bootstrap_commits_all_and_notifies_witness :
    (fetch_internlist_jobs [sampleAnchor] ++ (fetch_simplify_swe_jobs []).1 ≠ [] ∧
      w0.stateFile = ∅) ∧
    main envOK true (.ok [sampleAnchor]) [] w0 =
      (.ok (),
       ⟨((fetch_internlist_jobs [sampleAnchor] ++ (fetch_simplify_swe_jobs []).1).map
           Job.id).toFinset,
        w0.sentMessages ++ [messageLines (fetch_internlist_jobs [sampleAnchor])
          (fetch_simplify_swe_jobs []).1 (fetch_simplify_swe_jobs []).2]⟩) :=
  ⟨⟨by decide, rfl⟩,
   bootstrap_commits_all_and_notifies envOK [sampleAnchor] [] w0 rfl rfl rfl (by decide)⟩

/-! ### C2 — no commit when the notify call fails -/

/-- C2: whenever the run's notify call fails (a missing credential or a
failed Telegram call), the run leaves the whole world — in particular the
persisted SeenState — unchanged: the commit step is never reached. -/
theorem notify_failure_leaves_state_unchanged (env : Env) (netOk : Bool)
    (doc : Except Unit (List Anchor)) (resp : List (Option (Nat × String))) (w : World)
    (h : (main env netOk doc resp w).1 = .error .missingCredential ∨
         (main env netOk doc resp w).1 = .error .telegramHttp) :
    (main env netOk doc resp w).2 = w := by
  rcases main_ok_or_unchanged env netOk doc resp w with hok | hw
  · rcases h with h | h <;> rw [h] at hok <;> exact absurd hok (by simp)
  · exact hw

/-- Witness for C2 at a concrete run whose Telegram call fails. -/
theorem notify_failure_leaves_state_unchanged_witness :
    ((main envOK false (.ok [sampleAnchor]) [] w0).1 = .error .missingCredential ∨
      (main envOK false (.ok [sampleAnchor]) [] w0).1 = .error .telegramHttp) ∧
    (main envOK false (.ok [sampleAnchor]) [] w0).2 = w0 :=
  ⟨.inr rfl,
   notify_failure_leaves_state_unchanged envOK false (.ok [sampleAnchor]) [] w0 (.inr rfl)⟩

/-! ### C3 — empty delta means no side effects; idempotence -/

/-- C3: (1) when the new-posting delta is empty for both sources, the run is
a complete no-op (no send, no state write); (2) hence a second run over
identical source content after a successfully completed run has no side
effects — only the first run can notify. -/
theorem empty_new_no_side_effects_and_idempotent :
    (∀ (env : Env) (netOk : Bool) (anchors : List Anchor)
        (resp : List (Option (Nat × String))) (w : World),
        newInternlist anchors w.stateFile = [] →
        newSimplify resp w.stateFile = [] →
        main env netOk (.ok anchors) resp w = (.ok (), w)) ∧
    (∀ (env : Env) (netOk : Bool) (anchors : List Anchor)
        (resp : List (Option (Nat × String))) (w w' : World),
        main env netOk (.ok anchors) resp w = (.ok (), w') →
        main env netOk (.ok anchors) resp w' = (.ok (), w')) := by
  constructor
  · intro env netOk anchors resp w h1 h2
    exact main_no_new env netOk anchors resp w h1 h2
  · intro env netOk anchors resp w w' h
    rw [main_ok_def] at h
    split at h
    · rename_i hc
      rw [Bool.and_eq_true, List.isEmpty_iff, List.isEmpty_iff] at hc
      have hw : w = w' := congrArg Prod.snd h
      subst hw
      exact main_no_new env netOk anchors resp w hc.1 hc.2
    · rename_i hc
      split at h
      · rename_i e hsend
        have h1 : (Except.error e : Except RunError Unit) = .ok () := congrArg Prod.fst h
        exact absurd h1 (by simp)
      · rename_i u hsend
        have hw : (⟨w.stateFile ∪ ((newInternlist anchors w.stateFile
              ++ newSimplify resp w.stateFile).map Job.id).toFinset,
            w.sentMessages ++ [messageLines (newInternlist anchors w.stateFile)
              (newSimplify resp w.stateFile) (fetch_simplify_swe_jobs resp).2]⟩ : World)
            = w' := congrArg Prod.snd h
        subst hw
        apply main_no_new
        · show (fetch_internlist_jobs anchors).filter _ = []
          apply filter_nil_of_all_mem
          intro j hj
          rcases mem_seen_or_new (fetch_internlist_jobs anchors) w.stateFile j hj with
            hs | hn
          · exact Finset.mem_union_left _ hs
          · refine Finset.mem_union_right _ ?_
            rw [List.mem_toFinset]
            exact List.mem_map_of_mem _ (List.mem_append_left _ hn)
        · show (fetch_simplify_swe_jobs resp).1.filter _ = []
          apply filter_nil_of_all_mem
          intro j hj
          rcases mem_seen_or_new (fetch_simplify_swe_jobs resp).1 w.stateFile j hj with
            hs | hn
          · exact Finset.mem_union_left _ hs
          · refine Finset.mem_union_right _ ?_
            rw [List.mem_toFinset]
            exact List.mem_map_of_mem _ (List.mem_append_right _ hn)

/-- Witness for C3 at a concrete pair of back-to-back runs over the same
source content: the second run is a no-op. -/
theorem empty_new_no_side_effects_and_idempotent_witness :
    main envOK true (.ok [sampleAnchor]) [] w0 =
      (.ok (), (main envOK true (.ok [sampleAnchor]) [] w0).2) ∧
    main envOK true (.ok [sampleAnchor]) []
        ((main envOK true (.ok [sampleAnchor]) [] w0).2) =
      (.ok (), (main envOK true (.ok [sampleAnchor]) [] w0).2) :=
  ⟨rfl,
   empty_new_no_side_effects_and_idempotent.2 envOK true [sampleAnchor] [] w0
     ((main envOK true (.ok [sampleAnchor]) [] w0).2) rfl⟩

/-! ### C4 — display cap never limits the commit -/

lemma fetch_simplify_nil : fetch_simplify_swe_jobs [] = ([], 0) := rfl

/-- C4: on a committing run, every new posting id (from both sources, with no
per-source bound) lands in the committed SeenState, while the sent message is
`messageLines`, which renders only the first `take 6` postings per source —
at most 6 entries each. -/
theorem all_new_ids_committed_despite_display_cap (env : Env) (netOk : Bool)
    (anchors : List Anchor) (resp : List (Option (Nat × String))) (w w' : World)
    (hne : newInternlist anchors w.stateFile ++ newSimplify resp w.stateFile ≠ [])
    (hrun : main env netOk (.ok anchors) resp w = (.ok (), w')) :
    (∀ j ∈ newInternlist anchors w.stateFile ++ newSimplify resp w.stateFile,
        j.id ∈ w'.stateFile) ∧
    w'.sentMessages = w.sentMessages ++ [messageLines (newInternlist anchors w.stateFile)
      (newSimplify resp w.stateFile) (fetch_simplify_swe_jobs resp).2] ∧
    ((newInternlist anchors w.stateFile).take 6).length ≤ 6 ∧
    ((newSimplify resp w.stateFile).take 6).length ≤ 6 := by
  rw [main_ok_def, cond_false_of_ne_nil hne] at hrun
  simp only [Bool.false_eq_true, if_false] at hrun
  split at hrun
  · rename_i e hsend
    have h1 : (Except.error e : Except RunError Unit) = .ok () := congrArg Prod.fst hrun
    exact absurd h1 (by simp)
  · rename_i u hsend
    have hw : (⟨w.stateFile ∪ ((newInternlist anchors w.stateFile
          ++ newSimplify resp w.stateFile).map Job.id).toFinset,
        w.sentMessages ++ [messageLines (newInternlist anchors w.stateFile)
          (newSimplify resp w.stateFile) (fetch_simplify_swe_jobs resp).2]⟩ : World)
        = w' := congrArg Prod.snd hrun
    subst hw
    refine ⟨?_, rfl, ?_, ?_⟩
    · intro j hj
      exact Finset.mem_union_right _ (List.mem_toFinset.mpr (List.mem_map_of_mem _ hj))
    · rw [List.length_take]
      exact Nat.min_le_left _ _
    · rw [List.length_take]
      exact Nat.min_le_left _ _

/-- Witness for C4 at a concrete committing run. -/
theorem all_new_ids_committed_despite_display_cap_witness :
    (newInternlist [sampleAnchor] w0.stateFile ++ newSimplify [] w0.stateFile ≠ []) ∧
    ((∀ j ∈ newInternlist [sampleAnchor] w0.stateFile ++ newSimplify [] w0.stateFile,
        j.id ∈ (main envOK true (.ok [sampleAnchor]) [] w0).2.stateFile) ∧
      (main envOK true (.ok [sampleAnchor]) [] w0).2.sentMessages =
        w0.sentMessages ++ [messageLines (newInternlist [sampleAnchor] w0.stateFile)
          (newSimplify [] w0.stateFile) (fetch_simplify_swe_jobs []).2] ∧
      ((newInternlist [sampleAnchor] w0.stateFile).take 6).length ≤ 6 ∧
      ((newSimplify [] w0.stateFile).take 6).length ≤ 6) :=
  ⟨by decide,
   all_new_ids_committed_despite_display_cap envOK true [sampleAnchor] [] w0
     (main envOK true (.ok [sampleAnchor]) [] w0).2 (by decide) rfl⟩

/-! ### C5 — failure isolation between adapters -/

set_option maxRecDepth 8000 in
/-- C5 counterexample: the Intern-List fetch raising aborts the whole run —
the Simplify adapter had a perfectly good posting, yet nothing is processed,
notified, or committed.  This refutes "for every single source adapter whose
fetch or parse fails, the run is not aborted". -/
theorem internlist_fetch_failure_aborts_run_cex :
    (fetch_simplify_swe_jobs [some (200, sampleSimplifyDoc)]).1 ≠ [] ∧
    main envOK true (.error ()) [some (200, sampleSimplifyDoc)] w0 =
      (.error .internlistFetch, w0) :=
  ⟨by decide, rfl⟩

/-- C5 (amended): failure isolation holds only for the Simplify adapter.
(1) An Intern-List fetch failure aborts the run with no side effects;
(2) a failed Simplify fetch/parse (zero rows) leaves the run exactly as if
the source had yielded nothing; (3) in that case the Intern-List postings
are still notified and committed. -/
theorem adapter_failure_isolation :
    (∀ (env : Env) (netOk : Bool) (resp : List (Option (Nat × String))) (w : World),
        main env netOk (.error ()) resp w = (.error .internlistFetch, w)) ∧
    (∀ (env : Env) (netOk : Bool) (anchors : List Anchor)
        (resp : List (Option (Nat × String))) (w : World),
        fetch_simplify_swe_jobs resp = ([], 0) →
        main env netOk (.ok anchors) resp w = main env netOk (.ok anchors) [] w) ∧
    (∀ (env : Env) (anchors : List Anchor)
        (resp : List (Option (Nat × String))) (w : World),
        fetch_simplify_swe_jobs resp = ([], 0) →
        env.telegram_bot_token.isSome → env.telegram_chat_id.isSome →
        newInternlist anchors w.stateFile ≠ [] →
        main env true (.ok anchors) resp w =
          (.ok (),
           ⟨w.stateFile ∪ ((newInternlist anchors w.stateFile).map Job.id).toFinset,
            w.sentMessages ++ [messageLines (newInternlist anchors w.stateFile) [] 0]⟩)) := by
  refine ⟨?_, ?_, ?_⟩
  · intro env netOk resp w
    exact main_internlist_error env netOk () resp w
  · intro env netOk anchors resp w h
    rw [main_ok_def, main_ok_def]
    simp only [newSimplify, h, fetch_simplify_nil]
  · intro env anchors resp w h htok hchat hil
    have hS : newSimplify resp w.stateFile = [] := by
      simp [newSimplify, h]
    have hrows : (fetch_simplify_swe_jobs resp).2 = 0 := congrArg Prod.snd h
    have hne : newInternlist anchors w.stateFile ++ newSimplify resp w.stateFile ≠ [] := by
      rw [hS, List.append_nil]
      exact hil
    rw [main_send_ok env anchors resp w htok hchat hne, hS, List.append_nil, hrows]

/-- Witness for C5's amended theorem: both Simplify fetches raise (modelled
as `none` responses) and the Intern-List posting still goes out and is
committed. -/
theorem adapter_failure_isolation_witness :
    (fetch_simplify_swe_jobs [none, none] = ([], 0) ∧
      newInternlist [sampleAnchor] w0.stateFile ≠ []) ∧
    main envOK true (.ok [sampleAnchor]) [none, none] w0 =
      (.ok (),
       ⟨w0.stateFile ∪ ((newInternlist [sampleAnchor] w0.stateFile).map Job.id).toFinset,
        w0.sentMessages ++ [messageLines (newInternlist [sampleAnchor] w0.stateFile) [] 0]⟩) :=
  ⟨⟨rfl, by decide⟩,
   adapter_failure_isolation.2.2 envOK [sampleAnchor] [none, none] w0 rfl rfl rfl (by decide)⟩

/-! ### C6 — within-fetch dedup by link -/

lemma fetch_internlist_go_links (anchors : List Anchor) (seenLinks : List String) :
    (∀ j ∈ fetch_internlist_jobs_go anchors seenLinks, j.link ∉ seenLinks) ∧
    ((fetch_internlist_jobs_go anchors seenLinks).map Job.link).Nodup := by
  induction anchors generalizing seenLinks with
  | nil => simp [fetch_internlist_jobs_go]
  | cons a rest ih =>
    cases hp : processAnchor a with
    | none =>
      simp only [fetch_internlist_jobs_go, hp]
      exact ih seenLinks
    | some j =>
      by_cases hmem : j.link ∈ seenLinks
      · simp only [fetch_internlist_jobs_go, hp, if_pos hmem]
        exact ih seenLinks
      · simp only [fetch_internlist_jobs_go, hp, if_neg hmem]
        obtain ⟨ih1, ih2⟩ := ih (j.link :: seenLinks)
        constructor
        · intro j' hj'
          rcases List.mem_cons.mp hj' with rfl | hj'
          · exact hmem
          · intro hs
            exact ih1 j' hj' (List.mem_cons_of_mem _ hs)
        · rw [List.map_cons, List.nodup_cons]
          constructor
          · intro hmap
            obtain ⟨j', hj', he⟩ := List.mem_map.mp hmap
            exact ih1 j' hj' (he ▸ List.mem_cons_self _ _)
          · exact ih2

set_option maxRecDepth 8000 in
/-- C6 counterexample: the Simplify adapter does NOT deduplicate by link
within a single fetch — the same row (same link) appearing twice in the
table yields two candidates. -/
theorem simplify_duplicate_links_cex :
    ((fetch_simplify_swe_jobs [some (200, dupRowDoc)]).1.map Job.link) =
      ["https://acme.com/x", "https://acme.com/x"] ∧
    ¬ ((fetch_simplify_swe_jobs [some (200, dupRowDoc)]).1.map Job.link).Nodup :=
  ⟨by decide, by decide⟩

/-- C6 (amended): within-fetch dedup by link holds for the Intern-List
adapter (its output links are pairwise distinct for every anchor list); the
Simplify adapter has no such dedup. -/
theorem internlist_dedup_by_link (anchors : List Anchor) :
    ((fetch_internlist_jobs anchors).map Job.link).Nodup :=
  (fetch_internlist_go_links anchors []).2

/-! ### C7 — deterministic normalization -/

/-- C7: normalization is deterministic — both adapters' normalizers are pure
functions of their raw input (equal inputs give byte-identical outputs), and
the Intern-List id and link depend on the anchor's href alone. -/
theorem normalization_deterministic :
    (∀ a₁ a₂ : Anchor, a₁ = a₂ → processAnchor a₁ = processAnchor a₂) ∧
    (∀ (ln₁ ln₂ : List Char) (cells₁ cells₂ : List (List Char)),
        ln₁ = ln₂ → cells₁ = cells₂ → rowJob ln₁ cells₁ = rowJob ln₂ cells₂) ∧
    (∀ (a₁ a₂ : Anchor) (j₁ j₂ : Job), a₁.href = a₂.href →
        processAnchor a₁ = some j₁ → processAnchor a₂ = some j₂ →
        j₁.id = j₂.id ∧ j₁.link = j₂.link) := by
  refine ⟨fun a₁ a₂ h => h ▸ rfl, fun l₁ l₂ c₁ c₂ h1 h2 => h1 ▸ h2 ▸ rfl, ?_⟩
  intro a₁ a₂ j₁ j₂ hh h1 h2
  unfold processAnchor at h1 h2
  rw [← hh] at h2
  cases hn : normalize_internlist_url a₁.href with
  | none =>
    rw [hn] at h1
    exact absurd h1 (by simp)
  | some link =>
    rw [hn] at h1 h2
    dsimp only at h1 h2
    by_cases hm : (!internlistUrlMatch link) = true
    · rw [if_pos hm] at h1
      exact absurd h1 (by simp)
    · rw [if_neg hm] at h1
      rw [if_neg hm] at h2
      by_cases he1 : (collapseWs a₁.text.data).isEmpty = true
      · rw [if_pos he1] at h1
        exact absurd h1 (by simp)
      · rw [if_neg he1] at h1
        by_cases he2 : (collapseWs a₂.text.data).isEmpty = true
        · rw [if_pos he2] at h2
          exact absurd h2 (by simp)
        · rw [if_neg he2] at h2
          have e1 := Option.some.inj h1
          have e2 := Option.some.inj h2
          rw [← e1, ← e2]
          exact ⟨rfl, rfl⟩

set_option maxRecDepth 8000 in
/-- Witness for C7 at a concrete anchor. -/
theorem normalization_deterministic_witness :
    (sampleAnchor.href = sampleAnchor.href ∧
      processAnchor sampleAnchor = some sampleJob) ∧
    (sampleJob.id = sampleJob.id ∧ sampleJob.link = sampleJob.link) :=
  ⟨⟨rfl, by decide⟩,
   normalization_deterministic.2.2 sampleAnchor sampleAnchor sampleJob sampleJob rfl
     (by decide) (by decide)⟩

/-! ### C8 — when missing secrets are detected -/

/-- C8 counterexample: with both notification secrets absent, a run finding
nothing new completes successfully — the program does not fail at startup,
and both fetches ran before any credential was read. -/
theorem missing_credentials_run_succeeds_cex :
    main ⟨none, none⟩ true (.ok []) [] w0 = (.ok (), w0) := rfl

/-- C8 (amended): a missing secret is detected only when a notification is
attempted: on a run with new postings, `main` fails at the send step — after
both fetches — leaving the state unchanged and nothing sent. -/
theorem missing_credentials_fail_at_send (env : Env) (netOk : Bool)
    (anchors : List Anchor) (resp : List (Option (Nat × String))) (w : World)
    (hmiss : env.telegram_bot_token = none ∨ env.telegram_chat_id = none)
    (hne : newInternlist anchors w.stateFile ++ newSimplify resp w.stateFile ≠ []) :
    main env netOk (.ok anchors) resp w = (.error .missingCredential, w) := by
  rw [main_ok_def, cond_false_of_ne_nil hne]
  simp only [Bool.false_eq_true, if_false]
  rw [send_telegram_missing env netOk _ hmiss]

/-- Witness for C8's amended theorem: the bot token is absent and a new
posting exists, so the concrete run errors at send time. -/
theorem missing_credentials_fail_at_send_witness :
    ((⟨none, some "chat"⟩ : Env).telegram_bot_token = none ∨
      (⟨none, some "chat"⟩ : Env).telegram_chat_id = none) ∧
    (newInternlist [sampleAnchor] w0.stateFile ++ newSimplify [] w0.stateFile ≠ []) ∧
    main ⟨none, some "chat"⟩ true (.ok [sampleAnchor]) [] w0 =
      (.error .missingCredential, w0) :=
  ⟨.inl rfl, by decide,
   missing_credentials_fail_at_send ⟨none, some "chat"⟩ true [sampleAnchor] [] w0
     (.inl rfl) (by decide)⟩

/-! ### C9 — header-row matching -/

set_option maxRecDepth 8000 in
/-- C9 counterexample: a permuted header (`Role` first) is NOT matched, and
on a document whose table carries that header the adapter locates nothing —
order-independence fails. -/
theorem permuted_header_not_matched_cex :
    isHeaderRow (renderHeader ["Role".data, "Company".data, "Location".data,
      "Application".data, "Age".data]) = false ∧
    fetch_simplify_swe_jobs [some (200, permutedHeaderDoc)] = ([], 0) :=
  ⟨by decide, by decide⟩

set_option maxRecDepth 8000 in
/-- C9 (amended): the header match is case-insensitive, but not
order-independent: over all 120 orderings of the five labels in canonical
markdown spacing, the header is matched exactly when `Company` is the first
column and `Age` the last; an upper-case canonical header still locates the
table and its row is parsed. -/
theorem header_match_characterization :
    (permsOf headerLabels).all checkPerm = true ∧
    (fetch_simplify_swe_jobs [some (200, upperHeaderDoc)]).2 = 1 ∧
    (fetch_simplify_swe_jobs [some (200, upperHeaderDoc)]).1.map Job.link =
      ["https://acme.com/x"] := by
  refine ⟨?_, by decide, by decide⟩
  have h1 : ((permsOf headerLabels).take 40).all checkPerm = true := by decide
  have h2 : (((permsOf headerLabels).drop 40).take 40).all checkPerm = true := by decide
  have h3 : (((permsOf headerLabels).drop 40).drop 40).all checkPerm = true := by decide
  have e1 := List.take_append_drop 40 (permsOf headerLabels)
  have e2 := List.take_append_drop 40 ((permsOf headerLabels).drop 40)
  calc (permsOf headerLabels).all checkPerm
      = (((permsOf headerLabels).take 40)
          ++ ((permsOf headerLabels).drop 40)).all checkPerm := by rw [e1]
    _ = true := by
        rw [List.all_append, h1, ← e2, List.all_append, h2, h3]
        rfl

/-! ### C10 — structure of every sent message -/

lemma head_of_append (s t : String) (c : Char) (h : s.data.head? = some c) :
    (s ++ t).data.head? = some c := by
  rw [String.data_append]
  cases hd : s.data with
  | nil =>
    rw [hd] at h
    exact absurd h (by simp)
  | cons x xs =>
    rw [hd] at h
    simpa using h

lemma statusLine_head (rows newCount : Nat) :
    ("- Parsed " ++ toString rows ++ " rows; " ++ toString newCount
      ++ " new this run\n").data.head? = some '-' := by
  apply head_of_append
  apply head_of_append
  apply head_of_append
  apply head_of_append
  decide

lemma entryLine_head (j : Job) : (entryLine j).data.head? = some '-' := by
  unfold entryLine
  apply head_of_append
  apply head_of_append
  apply head_of_append
  apply head_of_append
  decide

lemma ilHeader_head : ("📌 Intern-List").data.head? = some '📌' := rfl

lemma ne_of_head_ne {s t : String} {c d : Char} (hs : s.data.head? = some c)
    (ht : t.data.head? = some d) (hcd : c ≠ d) : s ≠ t := by
  intro e
  rw [e, ht] at hs
  exact hcd (Option.some.inj hs).symm

lemma statusLine_mem (newIL newS : List Job) (rows : Nat) :
    ("- Parsed " ++ toString rows ++ " rows; " ++ toString newS.length
      ++ " new this run\n") ∈ messageLines newIL newS rows := by
  unfold messageLines
  simp [List.mem_append]

lemma ilHeader_mem_iff (newIL newS : List Job) (rows : Nat) :
    "📌 Intern-List" ∈ messageLines newIL newS rows ↔ newIL ≠ [] := by
  constructor
  · intro h hnil
    subst hnil
    have hexp : messageLines [] newS rows =
        "🆕 New Internship Postings\n" :: "📌 Simplify (GitHub)"
          :: ("- Parsed " ++ toString rows ++ " rows; " ++ toString newS.length
                ++ " new this run\n")
          :: (if newS.isEmpty then ["- (No new postings found from Simplify on this run)\n"]
              else (newS.take 6).map entryLine) := rfl
    rw [hexp] at h
    rcases List.mem_cons.mp h with h | h
    · exact absurd h (by decide)
    rcases List.mem_cons.mp h with h | h
    · exact absurd h (by decide)
    rcases List.mem_cons.mp h with h | h
    · exact absurd h (ne_of_head_ne ilHeader_head (statusLine_head rows newS.length)
        (by decide))
    by_cases hS : newS.isEmpty = true
    · rw [if_pos hS] at h
      rcases List.mem_singleton.mp h with h
      exact absurd h (by decide)
    · rw [if_neg hS] at h
      obtain ⟨j, -, he⟩ := List.mem_map.mp h
      exact absurd he (ne_of_head_ne (entryLine_head j) ilHeader_head (by decide))
  · intro h
    rcases hIL : newIL with _ | ⟨j, js⟩
    · exact absurd hIL h
    have hexp : messageLines (j :: js) newS rows =
        "🆕 New Internship Postings\n" :: "📌 Intern-List"
          :: ((((j :: js).take 6).map entryLine
              ++ ["📌 Simplify (GitHub)",
                  "- Parsed " ++ toString rows ++ " rows; " ++ toString newS.length
                    ++ " new this run\n"])
            ++ (if newS.isEmpty then
                  ["- (No new postings found from Simplify on this run)\n"]
                else (newS.take 6).map entryLine)) := rfl
    rw [hexp]
    exact List.mem_cons_of_mem _ (List.mem_cons_self _ _)

/-- C10: every message a successful run actually sends contains the Simplify
status line built from this run's parsed-row count and new-Simplify count
(also when that count is zero), and contains the Intern-List section header
exactly when Intern-List contributed at least one new posting. -/
theorem sent_message_structure (env : Env) (netOk : Bool) (anchors : List Anchor)
    (resp : List (Option (Nat × String))) (w w' : World) (msg : List String)
    (hrun : main env netOk (.ok anchors) resp w = (.ok (), w'))
    (hmsg : w'.sentMessages = w.sentMessages ++ [msg]) :
    ("- Parsed " ++ toString (fetch_simplify_swe_jobs resp).2 ++ " rows; "
        ++ toString (newSimplify resp w.stateFile).length ++ " new this run\n") ∈ msg ∧
    ("📌 Intern-List" ∈ msg ↔ newInternlist anchors w.stateFile ≠ []) := by
  rw [main_ok_def] at hrun
  split at hrun
  · rename_i hc
    have hw : w = w' := congrArg Prod.snd hrun
    rw [← hw] at hmsg
    have hlen := congrArg List.length hmsg
    simp at hlen
  · rename_i hc
    split at hrun
    · rename_i e hsend
      have h1 : (Except.error e : Except RunError Unit) = .ok () := congrArg Prod.fst hrun
      exact absurd h1 (by simp)
    · rename_i u hsend
      have hw : (⟨w.stateFile ∪ ((newInternlist anchors w.stateFile
            ++ newSimplify resp w.stateFile).map Job.id).toFinset,
          w.sentMessages ++ [messageLines (newInternlist anchors w.stateFile)
            (newSimplify resp w.stateFile) (fetch_simplify_swe_jobs resp).2]⟩ : World)
          = w' := congrArg Prod.snd hrun
      rw [← hw] at hmsg
      dsimp only at hmsg
      have hm : messageLines (newInternlist anchors w.stateFile)
          (newSimplify resp w.stateFile) (fetch_simplify_swe_jobs resp).2 = msg := by
        have := List.append_cancel_left hmsg
        exact (List.cons.injEq .. ▸ this).1
      rw [← hm]
      exact ⟨statusLine_mem _ _ _, ilHeader_mem_iff _ _ _⟩

/-- Witness for C10 at a concrete run that sends a message. -/
theorem sent_message_structure_witness :
    ((main envOK true (.ok [sampleAnchor]) [] w0).2.sentMessages =
        w0.sentMessages ++ [messageLines (newInternlist [sampleAnchor] w0.stateFile)
          (newSimplify [] w0.stateFile) (fetch_simplify_swe_jobs []).2]) ∧
    (("- Parsed " ++ toString (fetch_simplify_swe_jobs []).2 ++ " rows; "
        ++ toString (newSimplify [] w0.stateFile).length ++ " new this run\n")
        ∈ messageLines (newInternlist [sampleAnchor] w0.stateFile)
            (newSimplify [] w0.stateFile) (fetch_simplify_swe_jobs []).2 ∧
      ("📌 Intern-List" ∈ messageLines (newInternlist [sampleAnchor] w0.stateFile)
            (newSimplify [] w0.stateFile) (fetch_simplify_swe_jobs []).2 ↔
        newInternlist [sampleAnchor] w0.stateFile ≠ [])) :=
  ⟨rfl,
   sent_message_structure envOK true [sampleAnchor] [] w0
     (main envOK true (.ok [sampleAnchor]) [] w0).2
     (messageLines (newInternlist [sampleAnchor] w0.stateFile)
       (newSimplify [] w0.stateFile) (fetch_simplify_swe_jobs []).2) rfl rfl⟩

end InternAlert
